import Mathlib

/-!
Verification of the sports scheduling/optimization core (the two optimizer
variants `sports_optimizer.py` (Gurobi backend) and `sports_optimizer_scip.py`
(SCIP backend)).  The MIP models built by both variants are embedded shallowly:
decision-variable assignments become a `Sol` record of rational-valued
functions, each constraint family added by the model builder becomes a `Prop`
over a `Sol`, and the pure data-preparation code (phase orders, warm-start
reconciliation, save/load of solutions, pre-solve guards, output extraction)
becomes executable Lean functions translated statement by statement from the
Python source.  Times are minutes from midnight as rationals; the solver's
continuous variables are rationals as well, which is faithful for the
order-theoretic properties proved here.
-/

/-- A key of the decision variables `x`, `z`, `dt`, `zt`: an
(exercise-instance, day, area) triple, all encoded as strings exactly as the
Python code uses them. -/
abbrev Triple := String × String × String

/-- The fixed day list `D = ['sun', 'mán', 'þri', 'mið', 'fim', 'fös', 'lau']`
used when building the model (both variants). -/
def Dlist : List String := ["sun", "mán", "þri", "mið", "fim", "fös", "lau"]

/-- The day ordering `days = ['mán', ..., 'sun']` used by the output loop. -/
def daysOut : List String := ["mán", "þri", "mið", "fim", "fös", "lau", "sun"]

/-- The weekend days `Dw = ['sun', 'lau']`. -/
def Dw : List String := ["sun", "lau"]

/-- Big-M constant `M = 24 * 60` from both optimizers. -/
def Mbig : ℚ := 24 * 60

/-- One assignment of values to all decision variables of the MIP model:
start times `x`, activation indicators `z`, pairwise ordering booleans `y`,
flex amounts `dt`, flex-used indicators `zt` and the consecutive-day trackers
`q`.  Booleans are rationals constrained to `{0, 1}` by the feasibility
predicates, exactly as a MIP solution is. -/
structure Sol where
  x : Triple → ℚ
  z : Triple → ℚ
  y : String × String → ℚ
  dt : Triple → ℚ
  zt : Triple → ℚ
  q : String × ℕ → ℚ

/-- The data the model builder derives from the activity table: activities `E`,
areas `A`, the instances `EXsubset e` of each activity, the legal
(instance, day, area) triples `EDA`, durations `DX`, the per-triple window
bounds `LB`/`UB`, and the per-activity priority weights. -/
structure MData where
  E : List String
  A : List String
  EXsubset : String → List String
  EDA : List Triple
  DX : String → ℚ
  LB : Triple → ℚ
  UB : Triple → ℚ
  priority : String → ℚ

/-- The flattened instance list `EX` (all instances of all activities). -/
def EXlist (m : MData) : List String := m.E.flatMap m.EXsubset

/-- Time and activation constraints: for every legal triple,
`z*LB - dt <= x`, `x <= UB*z + dt` and `dt <= M*zt` (section 2 of both
model builders). -/
def timeWindowCons (m : MData) (s : Sol) : Prop :=
  ∀ k ∈ m.EDA,
    s.z k * m.LB k - s.dt k ≤ s.x k ∧
    s.x k ≤ m.UB k * s.z k + s.dt k ∧
    s.dt k ≤ Mbig * s.zt k

/-- Variable-domain constraints from the `addVars` declarations: `x` is a
continuous variable with lower bound 0 and upper bound `UB`, `dt` is
nonnegative, and `z`, `zt` are binary. -/
def varBoundCons (m : MData) (s : Sol) : Prop :=
  ∀ k ∈ m.EDA,
    0 ≤ s.x k ∧ s.x k ≤ m.UB k ∧ 0 ≤ s.dt k ∧
    (s.z k = 0 ∨ s.z k = 1) ∧ (s.zt k = 0 ∨ s.zt k = 1)

/-- The ordering variables `y` over distinct instance pairs are binary. -/
def yBinaryCons (m : MData) (s : Sol) : Prop :=
  ∀ e1 ∈ EXlist m, ∀ e2 ∈ EXlist m, e1 ≠ e2 →
    (s.y (e1, e2) = 0 ∨ s.y (e1, e2) = 1)

/-- The sum `quicksum(z[ex, d, a] for d in D for a in A if (ex, d, a) in EDA)`
of the activation indicators of one instance over all its legal
(day, area) pairs. -/
def sumZinstance (m : MData) (s : Sol) (ex : String) : ℚ :=
  (Dlist.flatMap (fun d =>
    (m.A.filter (fun a => decide ((ex, d, a) ∈ m.EDA))).map
      (fun a => s.z (ex, d, a)))).sum

/-- Exactly-one-placement constraint: each exercise instance is performed
exactly once (`== 1` over its legal (day, area) pairs). -/
def onceCons (m : MData) (s : Sol) : Prop :=
  ∀ ex ∈ EXlist m, sumZinstance m s ex = 1

/-- The per-day activation sum of one activity (all its instances, all areas). -/
def sumZactivityDay (m : MData) (s : Sol) (e d : String) : ℚ :=
  ((m.EXsubset e).flatMap (fun ex =>
    (m.A.filter (fun a => decide ((ex, d, a) ∈ m.EDA))).map
      (fun a => s.z (ex, d, a)))).sum

/-- Each exercise (activity) is scheduled at most once per day. -/
def perDayCons (m : MData) (s : Sol) : Prop :=
  ∀ d ∈ Dlist, ∀ e ∈ m.E, sumZactivityDay m s e d ≤ 1

/-- Pairwise big-M non-overlap constraints for two instances sharing the same
legal (day, area): section 3 of both model builders.  The first inequality
uses `M*y[e1,e2]`, the second `M*(1 - y[e1,e2])`. -/
def overlapCons (m : MData) (s : Sol) : Prop :=
  ∀ e1 ∈ EXlist m, ∀ e2 ∈ EXlist m, e1 ≠ e2 →
    ∀ d ∈ Dlist, ∀ a ∈ m.A, (e1, d, a) ∈ m.EDA → (e2, d, a) ∈ m.EDA →
      (s.x (e1, d, a) + m.DX e1 ≤ s.x (e2, d, a)
        + Mbig * (1 - s.z (e1, d, a)) + Mbig * (1 - s.z (e2, d, a))
        + Mbig * s.y (e1, e2)) ∧
      (s.x (e2, d, a) + m.DX e2 ≤ s.x (e1, d, a)
        + Mbig * (1 - s.z (e1, d, a)) + Mbig * (1 - s.z (e2, d, a))
        + Mbig * (1 - s.y (e1, e2)))

/-- The hard-coded exclusivity groups `ekki_deila_svaedi` (identical in both
variants). -/
def ekki_deila_svaedi : List (String × List String) :=
  [("A-sal", ["1/3 A-sal-1", "1/3 A-sal-2", "1/3 A-sal-3", "2/3 A-sal"]),
   ("2/3 A-sal", ["1/3 A-sal-1", "1/3 A-sal-2"])]

/-- Non-overlap across declared exclusivity-group area pairs (section 4 of
both model builders). -/
def sharedAreaCons (m : MData) (s : Sol) : Prop :=
  ∀ e1 ∈ EXlist m, ∀ e2 ∈ EXlist m, e1 ≠ e2 →
    ∀ d ∈ Dlist, ∀ p ∈ ekki_deila_svaedi, ∀ a2 ∈ p.2,
      (e1, d, p.1) ∈ m.EDA → (e2, d, a2) ∈ m.EDA →
        (s.x (e1, d, p.1) + m.DX e1 ≤ s.x (e2, d, a2)
          + Mbig * (1 - s.z (e1, d, p.1)) + Mbig * (1 - s.z (e2, d, a2))
          + Mbig * s.y (e1, e2)) ∧
        (s.x (e2, d, a2) + m.DX e2 ≤ s.x (e1, d, p.1)
          + Mbig * (1 - s.z (e1, d, p.1)) + Mbig * (1 - s.z (e2, d, a2))
          + Mbig * (1 - s.y (e1, e2)))

/-- Day-aggregated start-time sum of one instance:
`quicksum(x[e, d, a] for a in A if (e, d, a) in EDA)`. -/
def sumXinstanceDay (m : MData) (s : Sol) (ex d : String) : ℚ :=
  ((m.A.filter (fun a => decide ((ex, d, a) ∈ m.EDA))).map
    (fun a => s.x (ex, d, a))).sum

/-- Day-aggregated activation sum of one instance:
`quicksum(z[e, d, a] for a in A if (e, d, a) in EDA)`. -/
def sumZinstanceDay (m : MData) (s : Sol) (ex d : String) : ℚ :=
  ((m.A.filter (fun a => decide ((ex, d, a) ∈ m.EDA))).map
    (fun a => s.z (ex, d, a))).sum

/-- The declared-conflict constraints of the Gurobi variant (section 5,
lines 271-286): for each instance `e1` in the `CX` map and each `e2` in
`CX[e1]`, on every day the area-aggregated starts must be ordered by the
shared `y[e1,e2]` boolean, in both directions. -/
def conflictCons (m : MData) (s : Sol) (cx : List (String × List String)) : Prop :=
  ∀ p ∈ cx, ∀ e2 ∈ p.2, ∀ d ∈ Dlist,
    (sumXinstanceDay m s p.1 d + m.DX p.1 ≤ sumXinstanceDay m s e2 d
      + Mbig * (1 - sumZinstanceDay m s p.1 d)
      + Mbig * (1 - sumZinstanceDay m s e2 d)
      + Mbig * s.y (p.1, e2)) ∧
    (sumXinstanceDay m s e2 d + m.DX e2 ≤ sumXinstanceDay m s p.1 d
      + Mbig * (1 - sumZinstanceDay m s p.1 d)
      + Mbig * (1 - sumZinstanceDay m s e2 d)
      + Mbig * (1 - s.y (p.1, e2)))

/-- Legal-days constraints (`svaedi_dagar`, section 6 of the Gurobi variant):
for each (activity, area) with a declared allowed-day list, the activation sum
over instances and non-allowed days is zero. -/
def svaediDagarCons (m : MData) (s : Sol)
    (sd : List ((String × String) × List String)) : Prop :=
  ∀ p ∈ sd,
    ((Dlist.filter (fun d => decide (d ∉ p.2))).flatMap (fun d =>
      ((m.EXsubset p.1.1).filter (fun ex => decide ((ex, d, p.1.2) ∈ m.EDA))).map
        (fun ex => s.z (ex, d, p.1.2)))).sum = 0

/-- Activity-level sum of `x + DX*z` over all instances and areas on a day,
as used by the before/after constraints. -/
def sumXDXactivityDay (m : MData) (s : Sol) (e d : String) : ℚ :=
  ((m.EXsubset e).flatMap (fun ex =>
    (m.A.filter (fun a => decide ((ex, d, a) ∈ m.EDA))).map
      (fun a => s.x (ex, d, a) + m.DX ex * s.z (ex, d, a)))).sum

/-- Activity-level sum of `x` over all instances and areas on a day. -/
def sumXactivityDay (m : MData) (s : Sol) (e d : String) : ℚ :=
  ((m.EXsubset e).flatMap (fun ex =>
    (m.A.filter (fun a => decide ((ex, d, a) ∈ m.EDA))).map
      (fun a => s.x (ex, d, a)))).sum

/-- Before/after constraints (`undan_eftir`, section 7 of the Gurobi variant):
two-sided big-M inequalities tying an activity's end to its partner's start on
every day both are active. -/
def beforeAfterCons (m : MData) (s : Sol) (ue : List (String × String)) : Prop :=
  ∀ p ∈ ue, ∀ d ∈ Dlist,
    (sumXDXactivityDay m s p.1 d ≤ sumXactivityDay m s p.2 d
      + Mbig * (1 - sumZactivityDay m s p.1 d)
      + Mbig * (1 - sumZactivityDay m s p.2 d)) ∧
    (sumXDXactivityDay m s p.1 d ≥ sumXactivityDay m s p.2 d
      - Mbig * (1 - sumZactivityDay m s p.1 d)
      - Mbig * (1 - sumZactivityDay m s p.2 d))

/-- The seven calendar-adjacent day pairs (index, earlier day, later day),
including the wrap-around pair `(D[6], D[0])` with tracker index 6. -/
def consecutivePairs : List (ℕ × String × String) :=
  [(0, "sun", "mán"), (1, "mán", "þri"), (2, "þri", "mið"), (3, "mið", "fim"),
   (4, "fim", "fös"), (5, "fös", "lau"), (6, "lau", "sun")]

/-- Two-consecutive-days tracking constraints (section 8 of the Gurobi
variant), plus nonnegativity of the tracker variables `q`. -/
def qCons (m : MData) (s : Sol) : Prop :=
  ∀ e ∈ m.E, ∀ t ∈ consecutivePairs,
    (((m.EXsubset e).flatMap (fun ex =>
      (m.A.filter (fun a =>
        decide ((ex, t.2.1, a) ∈ m.EDA ∧ (ex, t.2.2, a) ∈ m.EDA))).map
        (fun a => s.z (ex, t.2.1, a) + s.z (ex, t.2.2, a)))).sum - 1
      ≤ s.q (e, t.1)) ∧ 0 ≤ s.q (e, t.1)

/-- Feasibility for the full constraint system built by
`run_gurobi_optimization` when no previous solution is supplied (the
stay-close constraints are then absent): the conjunction of every constraint
family the model builder adds, for given conflict map `cx`, legal-day map `sd`
and before/after map `ue`. -/
def gurobiFeasible (m : MData) (cx : List (String × List String))
    (sd : List ((String × String) × List String))
    (ue : List (String × String)) (s : Sol) : Prop :=
  timeWindowCons m s ∧ varBoundCons m s ∧ yBinaryCons m s ∧ onceCons m s ∧
  perDayCons m s ∧ overlapCons m s ∧ sharedAreaCons m s ∧
  conflictCons m s cx ∧ svaediDagarCons m s sd ∧ beforeAfterCons m s ue ∧
  qCons m s

/-- The timeflex objective
`quicksum(priority[e] * (dt[ex,d,a] + 100*zt[ex,d,a]) for e in E for ex in
EXsubset[e] for d in D for a in A if (ex,d,a) in EDA)` (both variants). -/
def timeflexExpr (m : MData) (s : Sol) : ℚ :=
  (m.E.flatMap (fun e => (m.EXsubset e).flatMap (fun ex =>
    Dlist.flatMap (fun d =>
      (m.A.filter (fun a => decide ((ex, d, a) ∈ m.EDA))).map
        (fun a => m.priority e * (s.dt (ex, d, a) + 100 * s.zt (ex, d, a))))))).sum

/-- Helper: split a character list at every occurrence of the separator,
mirroring Python's `str.split(sep)` (so `"a:b".split(':') = ["a","b"]` and a
trailing separator yields a trailing empty component). -/
def splitChar (sep : Char) : List Char → List (List Char)
  | [] => [[]]
  | c :: rest =>
    let r := splitChar sep rest
    if c = sep then [] :: r
    else
      match r with
      | [] => [[c]]
      | h :: t => (c :: h) :: t

/-- Helper: parse a nonempty all-digit character list as a natural number,
mirroring Python's `int` on the strings that occur in this pipeline (`none`
models the `ValueError` on anything else). -/
def digitsToNat (l : List Char) : Option ℕ :=
  if l.isEmpty then none
  else l.foldl (fun acc c =>
    match acc with
    | none => none
    | some n => if c.isDigit then some (n * 10 + (c.toNat - 48)) else none)
    (some 0)

/-- The `time_to_minutes` helper of both optimizers:
`hours, minutes = map(int, time_str.split(':')); hours * 60 + minutes`.
`none` models the exception raised on a malformed string. -/
def time_to_minutes (t : String) : Option ℕ :=
  match (splitChar ':' t.toList).map digitsToNat with
  | [some h, some m] => some (h * 60 + m)
  | _ => none

/-- Helper: render a natural number below 100 as two digits with a leading
zero, mirroring the format `f"{n:02d}"` on the values reachable here. -/
def pad2 (n : ℕ) : String :=
  String.mk [Char.ofNat (48 + n / 10 % 10), Char.ofNat (48 + n % 10)]

/-- The `round_time_to_nearest_5_minutes` helper of the SCIP module: parse
`HH:MM`, round the total minutes to the nearest multiple of 5, re-render; any
parse failure returns the input unchanged (the `except` branch).  Rounding to
the nearest multiple of 5 is `((total + 2) / 5) * 5` in natural division;
Python's bankers rounding never faces a tie here because `total/5.0` has
fractional part in `\x7b0, .2, .4, .6, .8\x7d`. -/
def round_time_to_nearest_5_minutes (t : String) : String :=
  match time_to_minutes t with
  | none => t
  | some total =>
    let rounded := ((total + 2) / 5) * 5
    pad2 (rounded / 60) ++ ":" ++ pad2 (rounded % 60)

/-- The phase order chosen by `run_gurobi_optimization` (lines 389-394):
`["stayclose", "timeflex"]` when a previous solution is supplied, otherwise
`["timeflex", "default"]`. -/
def gurobiObjectiveOrder (hasPrev : Bool) : List String :=
  if hasPrev then ["stayclose", "timeflex"] else ["timeflex", "default"]

/-- The phase order of `run_scip_optimization` (lines 477-481): the
conditional assignment is immediately overwritten by the unconditional
`objective_order = ["timeflex"]` on line 481, modelled here by the shadowing
`let`. -/
def scipObjectiveOrder (hasPrev : Bool) : List String :=
  let objective_order :=
    if hasPrev then ["stayclose", "timeflex"] else ["before_after", "timeflex", "default"]
  let objective_order := ["timeflex"]
  objective_order

/-- Solver status values relevant to the Gurobi post-phase branch. -/
inductive GStatus where
  | Optimal | TimeLimit | Infeasible | Unbounded | Interrupted
deriving DecidableEq

/-- What the phase scheduler does to the model after one phase's solve:
add `objective <= bound` fixing the achieved value, add a fallback ceiling
`objective <= bound`, or add nothing. -/
inductive PhaseAction where
  | fixObjective (bound : ℚ)
  | fallbackCeiling (bound : ℚ)
  | noAction
deriving DecidableEq

/-- The tolerance `1e-6` added to the best value in the fixing constraints. -/
def fixTol : ℚ := 1 / 1000000

/-- Post-phase action of the Gurobi variant (lines 421-425): if the status is
optimal or time-limit, add `obj_expr <= best_val + 1e-6`; otherwise only a
warning is printed and no constraint of any kind is added. -/
def gurobiPostPhase (status : GStatus) (objVal : ℚ) : PhaseAction :=
  if status = GStatus.Optimal ∨ status = GStatus.TimeLimit then
    PhaseAction.fixObjective (objVal + fixTol)
  else PhaseAction.noAction

/-- Post-phase action of the SCIP variant (lines 524-535): with at least one
solution and a following phase, add the fixing constraint; with no solution
and a following phase, add the fallback ceiling `default_limit`; after the
final phase nothing is added. -/
def scipPostPhase (nsols : ℕ) (bestVal defaultLimit : ℚ) (idx n : ℕ) : PhaseAction :=
  if 0 < nsols then
    if idx < n - 1 then PhaseAction.fixObjective (bestVal + fixTol) else PhaseAction.noAction
  else
    if idx < n - 1 then PhaseAction.fallbackCeiling defaultLimit else PhaseAction.noAction

/-- A row of a persisted table, as the association list of its column values
(the dict produced by `to_dict(orient="records")` for one row). -/
abbrev TableRow := List (String × String)

/-- The persisted solution document: the editable conditions table and the
solved output table, side by side. -/
structure SolutionDoc where
  conditions : List TableRow
  solution : List TableRow
deriving DecidableEq

/-- The `save_solution` of the Gurobi module (sports_optimizer.py, lines
10-22): stores the edited table (or `[]` when absent) as `conditions` and the
result table as `solution`, unchanged. -/
def save_solution_gurobi (result_df : List TableRow)
    (edited_df : Option (List TableRow)) : SolutionDoc :=
  ⟨match edited_df with | some e => e | none => [], result_df⟩

/-- Per-row effect of the SCIP module's pre-save rounding: the values of the
`Byrjun` and `Endir` columns are rounded to the nearest 5 minutes. -/
def roundRec (r : TableRow) : TableRow :=
  r.map (fun kv =>
    if kv.1 = "Byrjun" ∨ kv.1 = "Endir" then
      (kv.1, round_time_to_nearest_5_minutes kv.2)
    else kv)

/-- The `save_solution` of the SCIP module (sports_optimizer_scip.py, lines
24-42): same document, but `Byrjun`/`Endir` of every solution row are first
rounded to the nearest 5 minutes. -/
def save_solution_scip (result_df : List TableRow)
    (edited_df : Option (List TableRow)) : SolutionDoc :=
  ⟨match edited_df with | some e => e | none => [], result_df.map roundRec⟩

/-- The `load_solution` of both modules: read back the solution and the
conditions tables of a persisted document. -/
def load_solution (doc : SolutionDoc) : List TableRow × List TableRow :=
  (doc.solution, doc.conditions)

/-- One row of the caller-supplied previous-solution table: activity name,
day code, area code, start time string, and the `Modified` /
`ViolatedWindow` flags (defaulting to false via `row.get`). -/
structure PrevRow where
  aefing : String
  dagur : String
  salur : String
  byrjun : String
  modifiedFlag : Bool
  violatedFlag : Bool
deriving DecidableEq

/-- The state accumulated by the warm-start reconciliation loop:
`prev_assignment` (prior start minutes per (instance, day) key),
`mod_penalty` (deviation penalty weight per key), and the `modifiedEDA`
list of (instance, day) keys of user-modified rows. -/
structure ReconState where
  prevAssignment : List ((String × String) × ℕ)
  modPenalty : List ((String × String) × ℕ)
  modifiedEDA : List (String × String)
deriving DecidableEq

/-- Python dict assignment `d[k] = v` on an association list: overwrite the
existing binding or append a new one. -/
def dinsert (l : List ((String × String) × ℕ)) (k : String × String) (v : ℕ) :
    List ((String × String) × ℕ) :=
  if l.any (fun p => p.1 = k) then
    l.map (fun p => if p.1 = k then (k, v) else p)
  else l ++ [(k, v)]

/-- The warm-start reconciliation loop of `run_gurobi_optimization`
(lines 180-203).  `edaL` is the `EDA` list with each 3-tuple encoded as the
list of its components, so that the source's membership test
`(ex, d) in EDA` — a 2-tuple searched in a list of 3-tuples — is
reproduced exactly: `[ex, d]` is compared against 3-element lists.
`none` models the exception on an unparsable start time. -/
def gurobiReconcile (EXsubset : String → List String)
    (edaL : List (List String)) (rows : List PrevRow) : Option ReconState :=
  rows.foldlM (fun st row =>
    match time_to_minutes row.byrjun with
    | none => none
    | some start_minutes =>
      let penalty := if row.violatedFlag then 0
                     else if row.modifiedFlag then 100 else 1
      if row.violatedFlag then some st
      else some ((EXsubset row.aefing).foldl (fun st2 ex =>
        let key := (ex, row.dagur)
        let st3 : ReconState :=
          if row.modifiedFlag then
            ⟨st2.prevAssignment, st2.modPenalty, st2.modifiedEDA ++ [key]⟩
          else st2
        if [ex, row.dagur] ∈ edaL then
          ⟨dinsert st3.prevAssignment key start_minutes,
            dinsert st3.modPenalty key penalty, st3.modifiedEDA⟩
        else st3) st))
    ⟨[], [], []⟩

/-- The warm-start reconciliation loop of `run_scip_optimization`
(lines 236-257): identical row handling, except that the recording of
`prev_assignment` and `mod_penalty` sits inside the `if modified:` branch, so
only user-modified rows are recorded at all. -/
def scipReconcile (EXsubset : String → List String)
    (rows : List PrevRow) : Option ReconState :=
  rows.foldlM (fun st row =>
    match time_to_minutes row.byrjun with
    | none => none
    | some start_minutes =>
      let penalty := if row.violatedFlag then 0
                     else if row.modifiedFlag then 100 else 1
      if row.violatedFlag then some st
      else some ((EXsubset row.aefing).foldl (fun st2 ex =>
        let key := (ex, row.dagur)
        if row.modifiedFlag then
          ⟨dinsert st2.prevAssignment key start_minutes,
            dinsert st2.modPenalty key penalty, st2.modifiedEDA ++ [key]⟩
        else st2) st))
    ⟨[], [], []⟩

/-- Guard A of `run_scip_optimization` (lines 501-505): the first instance
with no legal (day, area) option, for which a `RuntimeError` naming it is
raised. -/
def guardA (EXl Al : List String) (EDA : List Triple) : Option String :=
  EXl.find? (fun ex =>
    (Dlist.flatMap (fun d =>
      Al.filter (fun a => decide ((ex, d, a) ∈ EDA)))).isEmpty)

/-- Guard B of `run_scip_optimization` (lines 507-510): the first window key
with `LB > UB`, reported with its bounds in the raised `RuntimeError`. -/
def guardB (LBkeys : List Triple) (LB UB : Triple → ℚ) :
    Option (Triple × ℚ × ℚ) :=
  ((LBkeys.filter (fun k => decide (UB k < LB k))).head?).map
    (fun k => (k, LB k, UB k))

/-- The observable coarse-grained steps of one optimizer run, used to state
where in the control flow the pre-solve guards sit. -/
inductive RunStep where
  | addVariables
  | addTimeCons
  | addOnceCons
  | addPerDayCons
  | addOverlapCons
  | addSharedAreaCons
  | setObjectivePhase (phase : String)
  | guardNoOptions
  | guardWindows
  | runOptimize (phase : String)
  | extractOutput
deriving DecidableEq

/-- The model-building steps executed before the phase loop (variables and
the active constraint sections, in source order). -/
def modelBuildSteps : List RunStep :=
  [RunStep.addVariables, RunStep.addTimeCons, RunStep.addOnceCons,
   RunStep.addPerDayCons, RunStep.addOverlapCons, RunStep.addSharedAreaCons]

/-- The body of one iteration of the SCIP phase loop: set the objective, run
Guard A and Guard B, then optimize.  The guards sit inside the loop
(lines 500-513), after the model has been fully built. -/
def scipPhaseLoopSteps (ph : String) : List RunStep :=
  [RunStep.setObjectivePhase ph, RunStep.guardNoOptions, RunStep.guardWindows,
   RunStep.runOptimize ph]

/-- The step trace of `run_scip_optimization` for a given phase order. -/
def scipRunSteps (order : List String) : List RunStep :=
  modelBuildSteps ++ order.flatMap scipPhaseLoopSteps ++ [RunStep.extractOutput]

/-- The body of one iteration of the Gurobi phase loop: no guards exist in
that variant. -/
def gurobiPhaseLoopSteps (ph : String) : List RunStep :=
  [RunStep.setObjectivePhase ph, RunStep.runOptimize ph]

/-- The step trace of `run_gurobi_optimization` for a given phase order. -/
def gurobiRunSteps (order : List String) : List RunStep :=
  modelBuildSteps ++ order.flatMap gurobiPhaseLoopSteps ++ [RunStep.extractOutput]

/-- Position of the first occurrence of a step in a trace (length of the
trace if absent). -/
def stepPos (steps : List RunStep) (s : RunStep) : ℕ :=
  (steps.takeWhile (fun t => decide (t ≠ s))).length

/-- Whether the output loop emits a record for instance `ex` at `(d, a)`:
the key is legal and the activation value exceeds the read-out threshold
(`z[...].X > 0.1` in the Gurobi variant, `getSolVal(...) > 0.5` in the SCIP
variant). -/
def activatedB (m : MData) (s : Sol) (thr : ℚ) (ex d a : String) : Bool :=
  decide ((ex, d, a) ∈ m.EDA) && decide (thr < s.z (ex, d, a))

/-- The (activity, key) pairs at which the output loop
`for e in E: for d in days: for a in A: for ex in EXsubset[e]: ...` appends a
record, in loop order.  Each entry corresponds to exactly one output row. -/
def emittedEntries (m : MData) (s : Sol) (thr : ℚ) : List (String × Triple) :=
  m.E.flatMap (fun e => daysOut.flatMap (fun d => m.A.flatMap (fun a =>
    ((m.EXsubset e).filter (fun ex => activatedB m s thr ex d a)).map
      (fun ex => (e, (ex, d, a))))))

/-- The area-abbreviation map `ABREV` (identical in both variants). -/
def ABREV : List (String × String) :=
  [("1/3 A-sal-1", "A"), ("1/3 A-sal-2", "A"), ("1/3 A-sal-3", "A"),
   ("2/3 A-sal", "A"), ("A-sal", "A"), ("B-sal", "B"),
   ("Gervi fjær", "G"), ("Gervi nær", "G"), ("Aðalvöllur", "Aðalv"),
   ("Æfingavöllur", "Æfingv"), ("Gervigras", "Gervi")]

/-- `ABREV.get(a, a)`: abbreviate an area, defaulting to itself. -/
def abrevOf (a : String) : String :=
  match (ABREV.find? (fun p => p.1 = a)).map (fun p => p.2) with
  | some v => v
  | none => a

/-- Render a minutes-from-midnight count as `HH:MM` via `divmod(_, 60)`
(floor division, as in Python). -/
def minutesToHHMM (n : ℤ) : String :=
  pad2 (n.ediv 60).toNat ++ ":" ++ pad2 (n.emod 60).toNat

/-- One output row of the SCIP variant's result table (its eight fields, in
column order).  Note: Python's float `round` is banker's rounding; `round` on
`ℚ` rounds half up.  They agree except at exact half-integer minute values,
which no claim here depends on. -/
structure OutRow where
  aefing : String
  dagur : String
  salur : String
  byrjun : String
  endir : String
  violatedWindow : Bool
  hluti : String
  modifiedOut : Bool
deriving DecidableEq

/-- Build one SCIP output row from an emitted (activity, key) entry
(lines 558-587 of sports_optimizer_scip.py). -/
def scipRowOf (m : MData) (s : Sol) (p : String × Triple) : OutRow :=
  let start := s.x p.2
  let endv := start + m.DX p.2.1
  let startTotal : ℤ := round start
  let endTotal : ℤ := round endv
  ⟨p.1, p.2.2.1, abrevOf p.2.2.2, minutesToHHMM startTotal,
    minutesToHHMM endTotal,
    decide (¬ (m.LB p.2 ≤ (startTotal : ℚ) ∧ (startTotal : ℚ) ≤ m.UB p.2)),
    p.2.2.2, false⟩

/-- A result table: column names plus rows. -/
structure ResultTable where
  columns : List String
  rows : List OutRow
deriving DecidableEq

/-- The explicit column list of the empty DataFrame returned by
`run_scip_optimization` when no phase produced a feasible solution
(lines 552-556). -/
def scipOutputColumns : List String :=
  ["Æfing", "Dagur", "Salur/svæði", "Byrjun", "Endir",
   "ViolatedWindow", "Hluti", "Modified"]

/-- The `final_sol` bookkeeping of the SCIP phase loop: starting from `None`,
each phase with at least one solution overwrites it with that phase's best
solution. -/
def finalSolFold (outcomes : List (ℕ × Sol)) : Option Sol :=
  outcomes.foldl (fun acc o => if 0 < o.1 then some o.2 else acc) none

/-- The tail of `run_scip_optimization`: with no feasible solution from any
phase, return the empty table with the explicit column list; otherwise build
the records from the final solution (threshold 0.5). -/
def scipResultTable (m : MData) (fin : Option Sol) : ResultTable :=
  match fin with
  | none => ⟨scipOutputColumns, []⟩
  | some s => ⟨scipOutputColumns, (emittedEntries m s (1/2)).map (scipRowOf m s)⟩

/-- Tags for the constraints added by `stayclose_constraint_fn`: the two
deviation bounds per previous-assignment key and the
`no_modified_zt` lock constraint. -/
inductive ConsTag where
  | prevDiffLower
  | prevDiffUpper
  | noModifiedZt
deriving DecidableEq

/-- The constraints `stayclose_constraint_fn` adds in the Gurobi variant
(lines 344-359): the two deviation-bound families and the hard
`no_modified_zt` lock. -/
def gurobiStaycloseAddcons : List ConsTag :=
  [ConsTag.prevDiffLower, ConsTag.prevDiffUpper, ConsTag.noModifiedZt]

/-- The phase-specific constraints of each Gurobi phase: only `stayclose`
carries any (`objectives[...]["constraints"]`, lines 360-388). -/
def gurobiPhaseAddcons (phase : String) : List ConsTag :=
  if phase = "stayclose" then gurobiStaycloseAddcons else []

/-- The phase-specific constraints of each SCIP phase: `stayclose` carries
`[stayclose_constraint_fn] if prev_assignment else []` (line 461), and that
function adds the lock constraint only when `modifiedEDA` is nonempty
(lines 443-444); every other phase adds nothing. -/
def scipPhaseAddcons (phase : String)
    (prevAssignmentNonempty modifiedNonempty : Bool) : List ConsTag :=
  if phase = "stayclose" ∧ prevAssignmentNonempty then
    [ConsTag.prevDiffLower, ConsTag.prevDiffUpper] ++
      (if modifiedNonempty then [ConsTag.noModifiedZt] else [])
  else []

/-- The hard lock constraint `no_modified_zt` added by
`stayclose_constraint_fn`: the sum of the flex-used indicators over all legal
triples whose (instance, day) pair is in `modifiedEDA` equals zero. -/
def noModifiedZtCons (m : MData) (modEDA : List (String × String)) (s : Sol) : Prop :=
  ((m.EDA.filter (fun k => decide ((k.1, k.2.1) ∈ modEDA))).map
    (fun k => s.zt k)).sum = 0

/-- `tmp[0]` of the conflict-map construction: from an activity's declared
conflict list, keep only names that are activities, and return the instance
list of the FIRST such name (so later declared conflicts are dropped). -/
def cxValue (cs E : List String) (EXsubset : String → List String) :
    Option (List String) :=
  ((cs.filter (fun c => decide (c ∈ E))).head?).map EXsubset

/-- The `CX` map built inside the legal-triple loop of the Gurobi variant
(lines 155-169): for every activity with at least one day in its schedule and
one reachable area, each of its instances is mapped to `tmp[0]` — the
instances of the first declared conflicting activity that exists. -/
def buildCX (E Al : List String) (schedDays areasOf : String → List String)
    (conflict_dict : List (String × List String))
    (EXsubset : String → List String) : List (String × List String) :=
  E.flatMap (fun e =>
    if (Dlist.any (fun d => decide (d ∈ schedDays e))) &&
       (Al.any (fun a => decide (a ∈ areasOf e))) then
      match conflict_dict.lookup e with
      | some cs =>
        match cxValue cs E EXsubset with
        | some v => (EXsubset e).map (fun ex => (ex, v))
        | none => []
      | none => []
    else [])

/-- Witness model: two activities `A`, `B`, one instance each, both legal
only on Monday in `B-sal` with window `[480, 1200]` and duration 60. -/
def wData : MData :=
  ⟨["A", "B"], ["B-sal"],
    fun e => if e = "A" then ["A - 1"] else if e = "B" then ["B - 1"] else [],
    [("A - 1", "mán", "B-sal"), ("B - 1", "mán", "B-sal")],
    fun ex => if ex = "A - 1" ∨ ex = "B - 1" then 60 else 0,
    fun _ => 480,
    fun _ => 1200,
    fun _ => 1⟩

/-- Witness solution for `wData`: `A - 1` at 10:00, `B - 1` at 11:00, both
active in `(mán, B-sal)`, no flex used. -/
def wSol : Sol :=
  ⟨fun k => if k.1 = "A - 1" then 600 else if k.1 = "B - 1" then 660 else 0,
    fun k => if k = ("A - 1", "mán", "B-sal") ∨ k = ("B - 1", "mán", "B-sal") then 1 else 0,
    fun p => if p = ("B - 1", "A - 1") then 1 else 0,
    fun _ => 0,
    fun _ => 0,
    fun _ => 0⟩

/-- Conflict-counterexample input: activities `A`, `B`, `C` in three distinct
areas that share no exclusivity group, all legal only on Monday; `A` and `B`
have the point window 10:00, `C` has the point window 8:00; all durations are
60 minutes.  The conflict column of `A` is `"C|B"` and that of `B` is
`"C|A"`, so `A` and `B` declare each other mutually conflicting. -/
def c6conflict_dict : List (String × List String) :=
  [("A", ["C", "B"]), ("B", ["C", "A"])]

/-- Days with a declared time window, per activity, for the
conflict-counterexample input. -/
def c6schedDays : String → List String :=
  fun e => if e = "A" ∨ e = "B" ∨ e = "C" then ["mán"] else []

/-- Reachable areas (`e_a`), per activity, for the conflict-counterexample
input. -/
def c6areasOf : String → List String :=
  fun e => if e = "A" then ["B-sal"]
           else if e = "B" then ["Gervigras"]
           else if e = "C" then ["Aðalvöllur"] else []

/-- Instance lists for the conflict-counterexample input. -/
def c6EXsubset : String → List String :=
  fun e => if e = "A" then ["A - 1"]
           else if e = "B" then ["B - 1"]
           else if e = "C" then ["C - 1"] else []

/-- Model data derived from the conflict-counterexample input. -/
def c6data : MData :=
  ⟨["A", "B", "C"], ["B-sal", "Gervigras", "Aðalvöllur"], c6EXsubset,
    [("A - 1", "mán", "B-sal"), ("B - 1", "mán", "Gervigras"),
     ("C - 1", "mán", "Aðalvöllur")],
    fun ex => if ex = "A - 1" ∨ ex = "B - 1" ∨ ex = "C - 1" then 60 else 0,
    fun k => if k.1 = "C - 1" then 480 else 600,
    fun k => if k.1 = "C - 1" then 480 else 600,
    fun _ => 1⟩

/-- The `CX` map the Gurobi variant builds for the conflict-counterexample
input. -/
def c6cx : List (String × List String) :=
  buildCX c6data.E c6data.A c6schedDays c6areasOf c6conflict_dict c6EXsubset

/-- Feasibility of the full Gurobi model for the conflict-counterexample
input (no day restrictions, no before/after pairs, no previous solution). -/
def c6Feasible (s : Sol) : Prop := gurobiFeasible c6data c6cx [] [] s

/-- A zero-flex solution of the conflict-counterexample model: `A - 1` and
`B - 1` both start at 10:00 (in their distinct areas), `C - 1` at 8:00. -/
def c6Sol : Sol :=
  ⟨fun k => if k.1 = "A - 1" ∨ k.1 = "B - 1" then 600
            else if k.1 = "C - 1" then 480 else 0,
    fun k => if k = ("A - 1", "mán", "B-sal") ∨ k = ("B - 1", "mán", "Gervigras")
               ∨ k = ("C - 1", "mán", "Aðalvöllur") then 1 else 0,
    fun p => if p = ("A - 1", "C - 1") ∨ p = ("B - 1", "C - 1") then 1 else 0,
    fun _ => 0,
    fun _ => 0,
    fun _ => 0⟩

/-- Instance map of the warm-start failing input: one activity `A` with the
single instance `A - 1`. -/
def c3EXsubset : String → List String := fun e => if e = "A" then ["A - 1"] else []

/-- The legal-triple list of the warm-start failing input, in the encoding
the Gurobi membership test `(ex, d) in EDA` operates on: `A - 1` is legal on
Monday in `B-sal`. -/
def c3edaL : List (List String) := [["A - 1", "mán", "B-sal"]]

/-- A previous-solution row for activity `A` on Monday at 10:00 that is
neither user-modified nor window-violating. -/
def c3rowPlain : PrevRow := ⟨"A", "mán", "A", "10:00", false, false⟩

/-- The same previous-solution row, but user-modified. -/
def c3rowMod : PrevRow := ⟨"A", "mán", "A", "10:00", true, false⟩

/-- Lower-bound map of the C8 witness window (a constant 600). -/
def c8LB : Triple → ℚ := fun _ => 600

/-- Upper-bound map of the C8 witness window (a constant 480, inverted). -/
def c8UB : Triple → ℚ := fun _ => 480

/-- The single window key of the C8 witness. -/
def c8key : Triple := ("X - 1", "mán", "B-sal")

/-- A solved table with start/end times not on a 5-minute grid. -/
def c9result : List TableRow :=
  [[("Æfing", "A"), ("Dagur", "mán"), ("Salur/svæði", "B"),
    ("Byrjun", "08:02"), ("Endir", "09:02")]]

/-- An edited conditions table. -/
def c9edited : List TableRow := [[("Æfing", "A"), ("Lengd", "60")]]

/-- A solved table whose times already sit on the 5-minute grid. -/
def c9resultRound : List TableRow := [[("Byrjun", "08:00"), ("Endir", "09:00")]]

/-- Helper: a list of nonnegative rationals summing to zero is pointwise
zero. -/
lemma sum_zero_of_nonneg {l : List ℚ} (h0 : ∀ v ∈ l, 0 ≤ v) (hs : l.sum = 0) :
    ∀ v ∈ l, v = 0 := by
  induction l with
  | nil => simp
  | cons a t ih =>
    simp only [List.sum_cons] at hs
    have hat : 0 ≤ t.sum :=
      List.sum_nonneg (fun v hv => h0 v (List.mem_cons_of_mem _ hv))
    have ha0 : 0 ≤ a := h0 a (List.mem_cons_self _ _)
    intro v hv
    rcases List.mem_cons.mp hv with rfl | hv2
    · linarith
    · exact ih (fun w hw => h0 w (List.mem_cons_of_mem _ hw)) (by linarith) v hv2

/-- Helper: `countP` distributes over `flatMap` as a sum of inner counts. -/
lemma countP_flatMap_eq {α β : Type} (p : β → Bool) (l : List α) (f : α → List β) :
    (l.flatMap f).countP p = (l.map (fun a => (f a).countP p)).sum := by
  rw [List.flatMap_def, List.countP_flatten, List.map_map]
  rfl

/-- Helper: `sum` distributes over `flatMap` as a sum of inner sums. -/
lemma sum_flatMap_eq {α : Type} (l : List α) (f : α → List ℚ) :
    (l.flatMap f).sum = (l.map (fun a => (f a).sum)).sum := by
  rw [List.flatMap_def, List.sum_flatten, List.map_map]
  rfl

/-- Helper: summing an indicator over a list counts the satisfying
elements. -/
lemma sum_map_ite_one {α : Type} (l : List α) (p : α → Bool) :
    (l.map (fun a => if p a then (1 : ℕ) else 0)).sum = l.countP p := by
  induction l with
  | nil => simp
  | cons a t ih =>
    by_cases h : p a <;> simp [List.countP_cons, h, ih, Nat.add_comm]

/-- Helper: mapping a function that vanishes away from one element of a
duplicate-free list sums to its value there. -/
lemma sum_map_eq_of_unique {α : Type} (l : List α) (g : α → ℕ) (a0 : α)
    (hnd : l.Nodup) (hm : a0 ∈ l) (hz : ∀ a ∈ l, a ≠ a0 → g a = 0) :
    (l.map g).sum = g a0 := by
  induction l with
  | nil => cases hm
  | cons b t ih =>
    rcases List.mem_cons.mp hm with rfl | hm2
    · have ht : ∀ a ∈ t, g a = 0 := by
        intro a ha
        exact hz a (List.mem_cons_of_mem _ ha)
          (fun hcontra => (List.nodup_cons.mp hnd).1 (hcontra ▸ ha))
      have : (t.map g).sum = 0 := by
        apply List.sum_eq_zero
        intro v hv
        obtain ⟨a, ha, rfl⟩ := List.mem_map.mp hv
        exact ht a ha
      simp [this]
    · have hb : g b = 0 :=
        hz b (List.mem_cons_self _ _)
          (fun hcontra => (List.nodup_cons.mp hnd).1 (hcontra ▸ hm2))
      simp only [List.map_cons, List.sum_cons, hb, Nat.zero_add]
      exact ih (List.nodup_cons.mp hnd).2 hm2
        (fun a ha hne => hz a (List.mem_cons_of_mem _ ha) hne)

/-- Helper: a list of 0/1 rationals sums to the count of its ones. -/
lemma binary_sum_eq_countP {l : List ℚ} (hb : ∀ v ∈ l, v = 0 ∨ v = 1) :
    l.sum = ((l.countP (fun v => decide (v = 1)) : ℕ) : ℚ) := by
  induction l with
  | nil => simp
  | cons a t ih =>
    have ht := ih (fun v hv => hb v (List.mem_cons_of_mem _ hv))
    rcases hb a (List.mem_cons_self _ _) with ha | ha <;>
      simp [List.countP_cons, ha, ht, add_comm]

/-- Shared witness fact: the witness solution `wSol` satisfies every
constraint family of the witness model `wData`. -/
lemma wSol_feasible : gurobiFeasible wData [] [] [] wSol := by
  refine ⟨?_, ?_, ?_, ?_, ?_, ?_, ?_, ?_, ?_, ?_, ?_⟩
  · intro k hk
    simp only [wData] at hk
    fin_cases hk <;> (try simp [wData, wSol, Mbig]) <;> (try norm_num)
  · intro k hk
    simp only [wData] at hk
    fin_cases hk <;> (try simp [wData, wSol, Mbig]) <;> (try norm_num)
  · intro e1 h1 e2 h2 hne
    simp only [EXlist, wData] at h1 h2
    fin_cases h1 <;> fin_cases h2 <;> simp_all [wSol]
  · intro ex hex
    simp only [EXlist, wData] at hex
    fin_cases hex <;> (try simp [sumZinstance, wData, wSol, Dlist]) <;> (try norm_num)
  · intro d hd e he
    simp only [wData] at he
    fin_cases hd <;> fin_cases he <;>
      (try simp [sumZactivityDay, wData, wSol, Dlist]) <;> (try norm_num)
  · intro e1 h1 e2 h2 hne d hd a ha hm1 hm2
    simp only [EXlist, wData] at h1 h2
    fin_cases h1 <;> fin_cases h2 <;> simp_all [wData, wSol, Mbig] <;> norm_num
  · intro e1 h1 e2 h2 hne d hd p hp a2 ha2 hm1 hm2
    simp only [wData] at hm1
    fin_cases hp <;> simp_all [wData]
  · intro p hp
    simp at hp
  · intro p hp
    simp at hp
  · intro p hp
    simp at hp
  · intro e he t ht
    simp only [wData] at he
    fin_cases he <;> fin_cases ht <;>
      (try simp [wData, wSol, consecutivePairs]) <;> (try norm_num)

/-- C1: in any solution satisfying the same-area non-overlap constraint
family (with binary activation and ordering variables) that both optimizers
add for every pair of instances sharing a legal (day, area), two instances
activated on the same day in the same actual area occupy disjoint half-open
intervals `[start, start + duration)`.  Every schedule either optimizer
returns is read off such a solution, so no two of its activated placements
in one (day, actual area) overlap. -/
theorem c1_no_overlap_same_area
    (m : MData) (s : Sol) (e1 e2 d a : String)
    (hov : overlapCons m s) (hyb : yBinaryCons m s)
    (he1 : e1 ∈ EXlist m) (he2 : e2 ∈ EXlist m) (hne : e1 ≠ e2)
    (hd : d ∈ Dlist) (ha : a ∈ m.A)
    (hm1 : (e1, d, a) ∈ m.EDA) (hm2 : (e2, d, a) ∈ m.EDA)
    (hz1 : s.z (e1, d, a) = 1) (hz2 : s.z (e2, d, a) = 1) :
    ∀ t : ℚ, ¬ (s.x (e1, d, a) ≤ t ∧ t < s.x (e1, d, a) + m.DX e1 ∧
                s.x (e2, d, a) ≤ t ∧ t < s.x (e2, d, a) + m.DX e2) := by
  intro t ht
  obtain ⟨ht1, ht2, ht3, ht4⟩ := ht
  obtain ⟨h1, h2⟩ := hov e1 he1 e2 he2 hne d hd a ha hm1 hm2
  rw [hz1, hz2] at h1 h2
  rcases hyb e1 he1 e2 he2 hne with hy | hy <;> rw [hy] at h1 h2 <;> linarith

/-- Witness for C1: in the witness model, both instances are activated in
`(mán, B-sal)` and the constraints force the concrete intervals
`[600, 660)` and `[660, 720)` apart. -/
theorem c1_witness :
    ((("A - 1" : String), ("mán" : String), ("B-sal" : String)) ∈ wData.EDA ∧
      wSol.z ("A - 1", "mán", "B-sal") = 1 ∧ wSol.z ("B - 1", "mán", "B-sal") = 1) ∧
    (∀ t : ℚ, ¬ (wSol.x ("A - 1", "mán", "B-sal") ≤ t ∧
                 t < wSol.x ("A - 1", "mán", "B-sal") + wData.DX "A - 1" ∧
                 wSol.x ("B - 1", "mán", "B-sal") ≤ t ∧
                 t < wSol.x ("B - 1", "mán", "B-sal") + wData.DX "B - 1")) := by
  constructor
  · exact ⟨by decide, by norm_num [wSol], by norm_num [wSol]⟩
  · exact c1_no_overlap_same_area wData wSol "A - 1" "B - 1" "mán" "B-sal"
      wSol_feasible.2.2.2.2.2.1 wSol_feasible.2.2.1
      (by decide) (by decide) (by decide) (by decide) (by decide)
      (by decide) (by decide) (by norm_num [wSol]) (by norm_num [wSol])

/-- C2: in any solution satisfying the exactly-one-placement constraint
family (with binary activation variables) that both optimizers add, the
output loop emits exactly one record for every session instance: the count of
emitted entries carrying that instance equals one.  (The threshold parameter
covers both read-out tests, `> 0.1` in the Gurobi variant and `> 0.5` in the
SCIP variant.) -/
theorem c2_instance_emitted_exactly_once
    (m : MData) (s : Sol) (thr : ℚ) (ex0 e0 : String)
    (hthr0 : 0 ≤ thr) (hthr1 : thr < 1)
    (honce : onceCons m s) (hvb : varBoundCons m s)
    (he0 : e0 ∈ m.E) (hex0 : ex0 ∈ m.EXsubset e0)
    (hEnodup : m.E.Nodup)
    (hcnt : (m.EXsubset e0).count ex0 = 1)
    (howner : ∀ e ∈ m.E, ex0 ∈ m.EXsubset e → e = e0) :
    (emittedEntries m s thr).countP (fun p => decide (p.2.1 = ex0)) = 1 := by
  have hxmem : ex0 ∈ EXlist m := List.mem_flatMap.mpr ⟨e0, he0, hex0⟩
  -- abbreviations
  set P : String × Triple → Bool := fun p => decide (p.2.1 = ex0) with hP
  -- the inner per-activity emission list
  set F : String → List (String × Triple) := fun e =>
    daysOut.flatMap (fun d => m.A.flatMap (fun a =>
      ((m.EXsubset e).filter (fun ex => activatedB m s thr ex d a)).map
        (fun ex => (e, (ex, d, a))))) with hF
  have hEmit : emittedEntries m s thr = m.E.flatMap F := rfl
  rw [hEmit, countP_flatMap_eq]
  -- activities other than e0 contribute no entries for ex0
  have hzero : ∀ e ∈ m.E, e ≠ e0 → (F e).countP P = 0 := by
    intro e he hne
    apply List.countP_eq_zero.mpr
    intro p hp hPp
    rw [hF] at hp
    obtain ⟨d, _, hp2⟩ := List.mem_flatMap.mp hp
    obtain ⟨a, _, hp3⟩ := List.mem_flatMap.mp hp2
    obtain ⟨ex, hexf, rfl⟩ := List.mem_map.mp hp3
    have hx0 : ex = ex0 := by simpa [hP] using hPp
    exact hne (howner e he (hx0 ▸ (List.mem_filter.mp hexf).1))
  rw [sum_map_eq_of_unique m.E _ e0 hEnodup he0 hzero]
  -- counting in the e0 block: one indicator per (day, area)
  have hcountInner : ∀ d a,
      (((m.EXsubset e0).filter (fun ex => activatedB m s thr ex d a)).map
        (fun ex => (e0, (ex, d, a)))).countP P
      = if activatedB m s thr ex0 d a then 1 else 0 := by
    intro d a
    rw [List.countP_map]
    have hco : ((m.EXsubset e0).filter (fun ex => activatedB m s thr ex d a)).countP
        (P ∘ fun ex => (e0, (ex, d, a)))
        = ((m.EXsubset e0).filter (fun ex => activatedB m s thr ex d a)).count ex0 := by
      rw [List.count_eq_countP]
      apply List.countP_congr
      intro x _
      simp only [hP, Function.comp, decide_eq_true_eq, beq_iff_eq]
    rw [hco]
    by_cases hact : activatedB m s thr ex0 d a
    · have hcf := @List.count_filter String _ _
        (fun ex => activatedB m s thr ex d a) ex0 (m.EXsubset e0) hact
      rw [if_pos hact, hcf, hcnt]
    · rw [if_neg hact]
      rw [List.count_eq_zero]
      intro hmem
      exact hact (List.mem_filter.mp hmem).2
  have hFe0 : (F e0).countP P
      = (daysOut.map (fun d =>
          (m.A.map (fun a => if activatedB m s thr ex0 d a then 1 else 0)).sum)).sum := by
    rw [hF]
    rw [countP_flatMap_eq]
    congr 1
    apply List.map_congr_left
    intro d _
    rw [countP_flatMap_eq]
    congr 1
    apply List.map_congr_left
    intro a _
    exact hcountInner d a
  rw [hFe0]
  -- convert indicator sums to countP
  have hind : ∀ d, (m.A.map (fun a => if activatedB m s thr ex0 d a then (1:ℕ) else 0)).sum
      = m.A.countP (fun a => activatedB m s thr ex0 d a) := fun d =>
    sum_map_ite_one m.A (fun a => activatedB m s thr ex0 d a)
  simp only [hind]
  -- the exactly-once constraint, rewritten as a count
  have h1 : sumZinstance m s ex0 = 1 := honce ex0 hxmem
  unfold sumZinstance at h1
  rw [sum_flatMap_eq] at h1
  have hday : ∀ d, ((m.A.filter (fun a => decide ((ex0, d, a) ∈ m.EDA))).map
      (fun a => s.z (ex0, d, a))).sum
      = ((m.A.countP (fun a => activatedB m s thr ex0 d a) : ℕ) : ℚ) := by
    intro d
    have hb : ∀ v ∈ (m.A.filter (fun a => decide ((ex0, d, a) ∈ m.EDA))).map
        (fun a => s.z (ex0, d, a)), v = 0 ∨ v = 1 := by
      intro v hv
      obtain ⟨a, ha, rfl⟩ := List.mem_map.mp hv
      have hmem : (ex0, d, a) ∈ m.EDA := by
        simpa using (List.mem_filter.mp ha).2
      exact (hvb (ex0, d, a) hmem).2.2.2.1
    rw [binary_sum_eq_countP hb]
    congr 1
    rw [List.countP_map, List.countP_filter]
    apply List.countP_congr
    intro a _
    constructor
    · intro hand
      simp only [Function.comp, Bool.and_eq_true, decide_eq_true_eq] at hand
      obtain ⟨hz1, hmem⟩ := hand
      simp only [activatedB, Bool.and_eq_true, decide_eq_true_eq]
      exact ⟨hmem, by rw [hz1]; exact hthr1⟩
    · intro hact
      simp only [activatedB, Bool.and_eq_true, decide_eq_true_eq] at hact
      obtain ⟨hmem, hgt⟩ := hact
      simp only [Function.comp, Bool.and_eq_true, decide_eq_true_eq]
      refine ⟨?_, hmem⟩
      rcases (hvb (ex0, d, a) hmem).2.2.2.1 with hz0 | hz1
      · exfalso
        rw [hz0] at hgt
        linarith
      · exact hz1
  simp only [hday] at h1
  have hnat : (Dlist.map (fun d => m.A.countP (fun a => activatedB m s thr ex0 d a))).sum = 1 := by
    have hcast : ((Dlist.map (fun d => m.A.countP (fun a => activatedB m s thr ex0 d a))).sum : ℚ) = 1 := by
      rw [Nat.cast_list_sum, List.map_map]
      exact h1
    exact_mod_cast hcast
  have hperm : daysOut.Perm Dlist := by decide
  rw [(hperm.map (fun d => m.A.countP (fun a => activatedB m s thr ex0 d a))).sum_eq]
  exact hnat

/-- Witness for C2: in the witness model the instance `A - 1` is emitted
exactly once by the output loop. -/
theorem c2_witness :
    ((0 : ℚ) ≤ 1/10 ∧ (1/10 : ℚ) < 1 ∧ ("A" : String) ∈ wData.E ∧
      ("A - 1" : String) ∈ wData.EXsubset "A" ∧
      (wData.EXsubset "A").count "A - 1" = 1) ∧
    (emittedEntries wData wSol (1/10)).countP
      (fun p => decide (p.2.1 = "A - 1")) = 1 := by
  constructor
  · exact ⟨by norm_num, by norm_num, by decide, by decide, by decide⟩
  · exact c2_instance_emitted_exactly_once wData wSol (1/10) "A - 1" "A"
      (by norm_num) (by norm_num) wSol_feasible.2.2.2.1 wSol_feasible.2.1
      (by decide) (by decide) (by decide) (by decide) (by decide)

/-- C3: evaluation of both warm-start reconcilers at the failing input.  The
claim says an unmodified, non-violating row records prior start 600 with
penalty weight 1 for instance `A - 1`; instead both reconcilers record
nothing for it.  The Gurobi variant also records nothing for a modified row
(only the `modifiedEDA` key), because its guard compares the 2-tuple
`(ex, d)` against a list of 3-tuples, which can never succeed — the final
conjunct proves that membership test unsatisfiable for every
properly-formed `EDA`.  The SCIP variant records prior starts only for
modified rows (with weight 100), because the recording statements are nested
inside its `if modified:` branch. -/
theorem c3_reconciler_code_bug :
    time_to_minutes "10:00" = some 600 ∧
    gurobiReconcile c3EXsubset c3edaL [c3rowPlain] = some ⟨[], [], []⟩ ∧
    scipReconcile c3EXsubset [c3rowPlain] = some ⟨[], [], []⟩ ∧
    gurobiReconcile c3EXsubset c3edaL [c3rowMod] = some ⟨[], [], [("A - 1", "mán")]⟩ ∧
    scipReconcile c3EXsubset [c3rowMod] =
      some ⟨[(("A - 1", "mán"), 600)], [(("A - 1", "mán"), 100)], [("A - 1", "mán")]⟩ ∧
    (∀ (ex d : String) (edaL : List (List String)),
      (∀ l ∈ edaL, l.length = 3) → [ex, d] ∉ edaL) := by
  refine ⟨by decide, by decide, by decide, by decide, by decide, ?_⟩
  intro ex d edaL h3 hmem
  have := h3 _ hmem
  simp at this

/-- C4 counterexample: the claim's phase sequences fail on the code.  With a
previous solution the SCIP variant solves `["timeflex"]`, not
`["stayclose", "timeflex"]` (its conditional order is overwritten), and
without one the Gurobi variant solves `["timeflex", "default"]`, not
`["before_after", "timeflex", "default"]` (it has no before/after phase);
the SCIP variant also solves just `["timeflex"]` in that case. -/
theorem c4_counterexample :
    scipObjectiveOrder true = ["timeflex"] ∧
    scipObjectiveOrder true ≠ ["stayclose", "timeflex"] ∧
    gurobiObjectiveOrder false = ["timeflex", "default"] ∧
    gurobiObjectiveOrder false ≠ ["before_after", "timeflex", "default"] ∧
    scipObjectiveOrder false ≠ ["before_after", "timeflex", "default"] := by
  refine ⟨by decide, by decide, by decide, by decide, by decide⟩

/-- C4 amended: the Gurobi variant solves stay-close then timeflex when a
previous solution is supplied and timeflex then the default tie-break phase
otherwise; the SCIP variant always solves exactly the single timeflex phase,
because its conditional phase order is unconditionally overwritten. -/
theorem c4_amended_phase_orders :
    gurobiObjectiveOrder true = ["stayclose", "timeflex"] ∧
    gurobiObjectiveOrder false = ["timeflex", "default"] ∧
    (∀ b : Bool, scipObjectiveOrder b = ["timeflex"]) := by
  refine ⟨by decide, by decide, by decide⟩

/-- C5 counterexample: in the Gurobi variant a phase that ends with no
feasible incumbent (e.g. status infeasible) adds no constraint at all — in
particular no fallback ceiling — before the next phase is solved. -/
theorem c5_counterexample :
    gurobiPostPhase GStatus.Infeasible 0 = PhaseAction.noAction ∧
    ¬ ∃ b : ℚ, gurobiPostPhase GStatus.Infeasible 0 = PhaseAction.fallbackCeiling b := by
  constructor
  · rfl
  · rintro ⟨b, hb⟩
    simp [gurobiPostPhase] at hb

/-- C5 amended: the SCIP variant implements the claimed transition rule —
`objective <= best + 1e-6` after a phase with an incumbent, the fallback
ceiling `default_limit` after a phase without one, in both cases only when a
later phase exists — while the Gurobi variant adds the fixing constraint
after an optimal or time-limit phase and adds nothing at all after a failed
phase (the solve continues either way). -/
theorem c5_amended_transition_rule (v dl : ℚ) (nsols idx n : ℕ) :
    (0 < nsols → idx < n - 1 →
      scipPostPhase nsols v dl idx n = PhaseAction.fixObjective (v + 1/1000000)) ∧
    (nsols = 0 → idx < n - 1 →
      scipPostPhase nsols v dl idx n = PhaseAction.fallbackCeiling dl) ∧
    (¬ idx < n - 1 → scipPostPhase nsols v dl idx n = PhaseAction.noAction) ∧
    gurobiPostPhase GStatus.Optimal v = PhaseAction.fixObjective (v + 1/1000000) ∧
    gurobiPostPhase GStatus.TimeLimit v = PhaseAction.fixObjective (v + 1/1000000) ∧
    gurobiPostPhase GStatus.Infeasible v = PhaseAction.noAction := by
  refine ⟨?_, ?_, ?_, ?_, ?_, ?_⟩
  · intro h1 h2
    simp [scipPostPhase, h1, h2, fixTol]
  · intro h1 h2
    simp [scipPostPhase, h1, h2, fixTol]
  · intro h1
    simp [scipPostPhase, h1]
  · simp [gurobiPostPhase, fixTol]
  · simp [gurobiPostPhase, fixTol]
  · simp [gurobiPostPhase]

/-- Witness for C5: a failed first phase of two in the SCIP variant yields
the fallback ceiling 1000. -/
theorem c5_witness :
    (0 : ℕ) = 0 ∧ 0 < 2 - 1 ∧
    scipPostPhase 0 0 1000 0 2 = PhaseAction.fallbackCeiling 1000 := by
  refine ⟨rfl, by norm_num, ?_⟩
  exact (c5_amended_transition_rule 0 1000 0 0 2).2.1 rfl (by norm_num)

/-- Shared fact for C6: the zero-flex overlapping solution satisfies every
constraint the Gurobi model builder generates for the conflict
counterexample input. -/
lemma c6Sol_feasible : c6Feasible c6Sol := by
  refine ⟨?_, ?_, ?_, ?_, ?_, ?_, ?_, ?_, ?_, ?_, ?_⟩
  · intro k hk
    simp only [c6data] at hk
    fin_cases hk <;> (try simp [c6data, c6Sol, Mbig]) <;> (try norm_num)
  · intro k hk
    simp only [c6data] at hk
    fin_cases hk <;> (try simp [c6data, c6Sol, Mbig]) <;> (try norm_num)
  · intro e1 h1 e2 h2 hne
    simp only [EXlist, c6data, c6EXsubset] at h1 h2
    fin_cases h1 <;> fin_cases h2 <;> simp_all [c6Sol]
  · intro ex hex
    simp only [EXlist, c6data, c6EXsubset] at hex
    fin_cases hex <;> (try simp [sumZinstance, c6data, c6Sol, Dlist]) <;> (try norm_num)
  · intro d hd e he
    simp only [c6data] at he
    fin_cases hd <;> fin_cases he <;>
      (try simp [sumZactivityDay, c6data, c6EXsubset, c6Sol, Dlist]) <;> (try norm_num)
  · intro e1 h1 e2 h2 hne d hd a ha hm1 hm2
    simp only [EXlist, c6data, c6EXsubset] at h1 h2
    fin_cases h1 <;> fin_cases h2 <;> simp_all [c6data, c6Sol, Mbig] <;> norm_num
  · intro e1 h1 e2 h2 hne d hd p hp a2 ha2 hm1 hm2
    simp only [c6data] at hm1
    fin_cases hp <;> simp_all [c6data]
  · intro p hp e2 he2 d hd
    rw [show c6cx = [("A - 1", ["C - 1"]), ("B - 1", ["C - 1"])] from by decide] at hp
    fin_cases hp <;> fin_cases he2 <;> fin_cases hd <;>
      (try simp [sumXinstanceDay, sumZinstanceDay, c6data, c6Sol, Mbig]) <;> (try norm_num)
  · intro p hp
    simp at hp
  · intro p hp
    simp at hp
  · intro e he t ht
    simp only [c6data] at he
    fin_cases he <;> fin_cases ht <;>
      (try simp [c6data, c6EXsubset, c6Sol, consecutivePairs]) <;> (try norm_num)

/-- Shared fact for C6: that solution uses no flex, so the timeflex phase
optimum of the counterexample model is 0. -/
lemma c6Sol_timeflex_zero : timeflexExpr c6data c6Sol = 0 := by
  simp [timeflexExpr, c6data, c6EXsubset, c6Sol, Dlist]


/-- C6 counterexample: activities `A` and `B` declare each other conflicting
(`A`'s column is `C|B`, `B`'s is `C|A`), yet because `CX[ex] = tmp[0]` keeps
only the FIRST declared conflict, the generated conflict map pairs each of
them with `C - 1` only.  The model admits a zero-flex solution placing
`A - 1` and `B - 1` both at 10:00 on Monday, so the timeflex optimum is 0;
and EVERY model solution within the timeflex fixing tolerance keeps both
instances active on Monday with intervals that both contain time 630 — the
returned schedule necessarily has the mutually conflicting pair overlapping.
(In the SCIP variant the whole conflict-constraint section is inside a string
literal and generates nothing at all.) -/
theorem c6_counterexample :
    ("B" ∈ ((c6conflict_dict.lookup "A").getD []) ∧
     "A" ∈ ((c6conflict_dict.lookup "B").getD [])) ∧
    c6cx = [("A - 1", ["C - 1"]), ("B - 1", ["C - 1"])] ∧
    (c6Feasible c6Sol ∧ timeflexExpr c6data c6Sol = 0) ∧
    (∀ s : Sol, c6Feasible s → timeflexExpr c6data s ≤ 1/1000000 →
      s.z ("A - 1", "mán", "B-sal") = 1 ∧ s.z ("B - 1", "mán", "Gervigras") = 1 ∧
      s.x ("A - 1", "mán", "B-sal") ≤ 630 ∧
      (630 : ℚ) < s.x ("A - 1", "mán", "B-sal") + c6data.DX "A - 1" ∧
      s.x ("B - 1", "mán", "Gervigras") ≤ 630 ∧
      (630 : ℚ) < s.x ("B - 1", "mán", "Gervigras") + c6data.DX "B - 1") := by
  refine ⟨⟨by decide, by decide⟩, by decide, ⟨c6Sol_feasible, c6Sol_timeflex_zero⟩, ?_⟩
  intro s hfeas htf
  obtain ⟨htw, hvb, hy, honce2, hpd, hov, hsh, hcx, hsd, hba, hq⟩ := hfeas
  have hzA : s.z ("A - 1", "mán", "B-sal") = 1 := by
    have h := honce2 "A - 1" (by decide)
    rw [show sumZinstance c6data s "A - 1" = s.z ("A - 1", "mán", "B-sal") + 0 from rfl] at h
    linarith
  have hzB : s.z ("B - 1", "mán", "Gervigras") = 1 := by
    have h := honce2 "B - 1" (by decide)
    rw [show sumZinstance c6data s "B - 1" = s.z ("B - 1", "mán", "Gervigras") + 0 from rfl] at h
    linarith
  obtain ⟨h1A, h2A, h3A⟩ := htw ("A - 1", "mán", "B-sal") (by decide)
  obtain ⟨h1B, h2B, h3B⟩ := htw ("B - 1", "mán", "Gervigras") (by decide)
  obtain ⟨hxA0, hxAub, hdtA0, hzAb, hztAb⟩ := hvb ("A - 1", "mán", "B-sal") (by decide)
  obtain ⟨hxB0, hxBub, hdtB0, hzBb, hztBb⟩ := hvb ("B - 1", "mán", "Gervigras") (by decide)
  obtain ⟨hxC0, hxCub, hdtC0, hzCb, hztCb⟩ := hvb ("C - 1", "mán", "Aðalvöllur") (by decide)
  have hztA : 0 ≤ s.zt ("A - 1", "mán", "B-sal") := by rcases hztAb with h | h <;> rw [h] <;> norm_num
  have hztB : 0 ≤ s.zt ("B - 1", "mán", "Gervigras") := by rcases hztBb with h | h <;> rw [h] <;> norm_num
  have hztC : 0 ≤ s.zt ("C - 1", "mán", "Aðalvöllur") := by rcases hztCb with h | h <;> rw [h] <;> norm_num
  rw [show timeflexExpr c6data s =
      1 * (s.dt ("A - 1", "mán", "B-sal") + 100 * s.zt ("A - 1", "mán", "B-sal")) +
      (1 * (s.dt ("B - 1", "mán", "Gervigras") + 100 * s.zt ("B - 1", "mán", "Gervigras")) +
      (1 * (s.dt ("C - 1", "mán", "Aðalvöllur") + 100 * s.zt ("C - 1", "mán", "Aðalvöllur")) + 0))
    from rfl] at htf
  have hdtA : s.dt ("A - 1", "mán", "B-sal") ≤ 1/1000000 := by linarith
  have hdtB : s.dt ("B - 1", "mán", "Gervigras") ≤ 1/1000000 := by linarith
  rw [hzA] at h1A h2A
  rw [hzB] at h1B h2B
  rw [show c6data.LB ("A - 1", "mán", "B-sal") = 600 from rfl] at h1A
  rw [show c6data.UB ("A - 1", "mán", "B-sal") = 600 from rfl] at h2A
  rw [show c6data.LB ("B - 1", "mán", "Gervigras") = 600 from rfl] at h1B
  rw [show c6data.UB ("B - 1", "mán", "Gervigras") = 600 from rfl] at h2B
  rw [show c6data.DX "A - 1" = 60 from rfl, show c6data.DX "B - 1" = 60 from rfl]
  refine ⟨hzA, hzB, by linarith, by linarith, by linarith, by linarith⟩

/-- C6 amended: the conflict relation the Gurobi variant actually enforces is
the generated `CX` map — each instance of an activity with a nonempty
conflict list against the instances of the FIRST declared conflicting
activity only.  For every pair in that map, on any day where both instances
are active (day-activation sums equal one) and the aggregated start sums
reduce to the active placements' starts, the two intervals are disjoint,
symmetrically via the shared ordering boolean.  The SCIP variant enforces no
conflict constraints at all (its section 5 is quoted out). -/
theorem c6_amended_conflicts
    (m : MData) (s : Sol) (cx : List (String × List String))
    (e1i e2i d a1 a2 : String) (l : List String)
    (hcx : conflictCons m s cx) (hyb : yBinaryCons m s)
    (hpair : (e1i, l) ∈ cx) (he2l : e2i ∈ l)
    (he1 : e1i ∈ EXlist m) (he2 : e2i ∈ EXlist m) (hne : e1i ≠ e2i)
    (hd : d ∈ Dlist)
    (hz1 : sumZinstanceDay m s e1i d = 1) (hz2 : sumZinstanceDay m s e2i d = 1)
    (hs1 : sumXinstanceDay m s e1i d = s.x (e1i, d, a1))
    (hs2 : sumXinstanceDay m s e2i d = s.x (e2i, d, a2)) :
    ∀ t : ℚ, ¬ (s.x (e1i, d, a1) ≤ t ∧ t < s.x (e1i, d, a1) + m.DX e1i ∧
                s.x (e2i, d, a2) ≤ t ∧ t < s.x (e2i, d, a2) + m.DX e2i) := by
  intro t ht
  obtain ⟨ht1, ht2, ht3, ht4⟩ := ht
  have hp := hcx (e1i, l) hpair e2i he2l d hd
  dsimp only at hp
  obtain ⟨h1, h2⟩ := hp
  rw [hs1, hs2, hz1, hz2] at h1 h2
  rcases hyb e1i he1 e2i he2 hne with hy | hy <;> rw [hy] at h1 h2 <;> linarith

/-- Witness for C6's amended theorem: in the counterexample model the
generated pair (`A - 1`, `C - 1`) is enforced apart: the intervals
`[600, 660)` and `[480, 540)` are disjoint. -/
theorem c6_witness :
    ((("A - 1" : String), ["C - 1"]) ∈ c6cx ∧
      sumZinstanceDay c6data c6Sol "A - 1" "mán" = 1 ∧
      sumZinstanceDay c6data c6Sol "C - 1" "mán" = 1 ∧
      sumXinstanceDay c6data c6Sol "A - 1" "mán" = c6Sol.x ("A - 1", "mán", "B-sal") ∧
      sumXinstanceDay c6data c6Sol "C - 1" "mán" = c6Sol.x ("C - 1", "mán", "Aðalvöllur")) ∧
    (∀ t : ℚ, ¬ (c6Sol.x ("A - 1", "mán", "B-sal") ≤ t ∧
                 t < c6Sol.x ("A - 1", "mán", "B-sal") + c6data.DX "A - 1" ∧
                 c6Sol.x ("C - 1", "mán", "Aðalvöllur") ≤ t ∧
                 t < c6Sol.x ("C - 1", "mán", "Aðalvöllur") + c6data.DX "C - 1")) := by
  constructor
  · refine ⟨by decide, ?_, ?_, ?_, ?_⟩
    · rw [show sumZinstanceDay c6data c6Sol "A - 1" "mán"
          = c6Sol.z ("A - 1", "mán", "B-sal") + 0 from rfl]
      norm_num [c6Sol]
    · rw [show sumZinstanceDay c6data c6Sol "C - 1" "mán"
          = c6Sol.z ("C - 1", "mán", "Aðalvöllur") + 0 from rfl]
      norm_num [c6Sol]
    · rw [show sumXinstanceDay c6data c6Sol "A - 1" "mán"
          = c6Sol.x ("A - 1", "mán", "B-sal") + 0 from rfl]
      norm_num
    · rw [show sumXinstanceDay c6data c6Sol "C - 1" "mán"
          = c6Sol.x ("C - 1", "mán", "Aðalvöllur") + 0 from rfl]
      norm_num
  · exact c6_amended_conflicts c6data c6Sol c6cx "A - 1" "C - 1" "mán"
      "B-sal" "Aðalvöllur" ["C - 1"]
      c6Sol_feasible.2.2.2.2.2.2.2.1 c6Sol_feasible.2.2.1
      (by decide) (by decide) (by decide) (by decide) (by decide) (by decide)
      (by rw [show sumZinstanceDay c6data c6Sol "A - 1" "mán"
            = c6Sol.z ("A - 1", "mán", "B-sal") + 0 from rfl]; norm_num [c6Sol])
      (by rw [show sumZinstanceDay c6data c6Sol "C - 1" "mán"
            = c6Sol.z ("C - 1", "mán", "Aðalvöllur") + 0 from rfl]; norm_num [c6Sol])
      (by rw [show sumXinstanceDay c6data c6Sol "A - 1" "mán"
            = c6Sol.x ("A - 1", "mán", "B-sal") + 0 from rfl]; norm_num)
      (by rw [show sumXinstanceDay c6data c6Sol "C - 1" "mán"
            = c6Sol.x ("C - 1", "mán", "Aðalvöllur") + 0 from rfl]; norm_num)

/-- C7 counterexample: in the SCIP variant the stay-close phase never
executes (the executed order is always `["timeflex"]`), and since the
zt-lock constraint is created only by the stay-close phase's constraint
function, no phase of any SCIP solve ever adds it — even when a previous
solution with modified rows is supplied. -/
theorem c7_counterexample :
    "stayclose" ∉ scipObjectiveOrder true ∧
    ((scipObjectiveOrder true).flatMap (fun ph => scipPhaseAddcons ph true true)) = [] ∧
    ConsTag.noModifiedZt ∉
      (scipObjectiveOrder true).flatMap (fun ph => scipPhaseAddcons ph true true) := by
  refine ⟨by decide, by decide, by decide⟩

/-- C7 amended: in the Gurobi variant the stay-close phase does run whenever
a previous solution is supplied, its constraint list contains the
`no_modified_zt` lock, and any solution satisfying that lock (with binary
flex indicators) has flex-used indicator zero at every legal triple whose
(instance, day) pair comes from a user-modified, non-violating previous row.
The lock covers the prior day's triples of the modified instance, not
placements of it on other days. -/
theorem c7_amended_lock (m : MData) (modEDA : List (String × String)) (s : Sol)
    (hcon : noModifiedZtCons m modEDA s) (hvb : varBoundCons m s)
    (k : Triple) (hk : k ∈ m.EDA) (hmod : (k.1, k.2.1) ∈ modEDA) :
    s.zt k = 0 ∧ "stayclose" ∈ gurobiObjectiveOrder true ∧
    ConsTag.noModifiedZt ∈ gurobiPhaseAddcons "stayclose" := by
  refine ⟨?_, by decide, by decide⟩
  have hmem : s.zt k ∈
      (m.EDA.filter (fun j => decide ((j.1, j.2.1) ∈ modEDA))).map (fun j => s.zt j) :=
    List.mem_map.mpr ⟨k, List.mem_filter.mpr ⟨hk, by simpa using hmod⟩, rfl⟩
  have h0 : ∀ v ∈ (m.EDA.filter (fun j => decide ((j.1, j.2.1) ∈ modEDA))).map
      (fun j => s.zt j), 0 ≤ v := by
    intro v hv
    obtain ⟨j, hj, rfl⟩ := List.mem_map.mp hv
    rcases (hvb j (List.mem_filter.mp hj).1).2.2.2.2 with h | h <;> rw [h] <;> norm_num
  exact sum_zero_of_nonneg h0 hcon _ hmem

/-- Witness for C7: with the witness model, instance `A - 1` modified on
Monday and the lock constraint satisfied by `wSol`, its flex-used indicator
at the Monday triple is zero. -/
theorem c7_witness :
    (noModifiedZtCons wData [("A - 1", "mán")] wSol ∧
      (("A - 1" : String), ("mán" : String), ("B-sal" : String)) ∈ wData.EDA) ∧
    wSol.zt ("A - 1", "mán", "B-sal") = 0 := by
  have hcon : noModifiedZtCons wData [("A - 1", "mán")] wSol := by
    unfold noModifiedZtCons
    rw [show (wData.EDA.filter
        (fun j => decide ((j.1, j.2.1) ∈ [(("A - 1" : String), ("mán" : String))]))).map
        (fun j => wSol.zt j) = [(0 : ℚ)] from rfl]
    norm_num
  exact ⟨⟨hcon, by decide⟩,
    (c7_amended_lock wData [("A - 1", "mán")] wSol hcon wSol_feasible.2.1
      ("A - 1", "mán", "B-sal") (by decide) (by decide)).1⟩

/-- C8 counterexample: in the SCIP run trace the unschedulable-instance
guard sits after the model-building steps (it runs inside the phase loop),
so the abort does NOT happen before the model is built; the Gurobi variant
has no such guard anywhere in its trace. -/
theorem c8_counterexample :
    RunStep.guardNoOptions ∈ scipRunSteps ["timeflex"] ∧
    RunStep.addVariables ∈ scipRunSteps ["timeflex"] ∧
    stepPos (scipRunSteps ["timeflex"]) RunStep.addVariables <
      stepPos (scipRunSteps ["timeflex"]) RunStep.guardNoOptions ∧
    RunStep.guardNoOptions ∉ gurobiRunSteps (gurobiObjectiveOrder true) ∧
    RunStep.guardNoOptions ∉ gurobiRunSteps (gurobiObjectiveOrder false) := by
  refine ⟨by decide, by decide, by decide, by decide, by decide⟩

/-- C8 amended: only the SCIP variant performs the two pre-solve checks, and
it does so inside the phase loop — after the model is built but before each
`optimize` call.  Guard A correctly reports an instance with no legal
(day, area) pair; Guard B correctly reports a window key with `LB > UB`
together with its bounds.  A raised guard propagates as an exception, so no
schedule is produced. -/
theorem c8_amended_guards
    (EXl Al : List String) (EDA : List Triple) (LBkeys : List Triple)
    (LB UB : Triple → ℚ) (ex : String) (k : Triple) (v1 v2 : ℚ)
    (hga : guardA EXl Al EDA = some ex)
    (hgb : guardB LBkeys LB UB = some (k, v1, v2)) :
    (ex ∈ EXl ∧ ∀ d ∈ Dlist, ∀ a ∈ Al, (ex, d, a) ∉ EDA) ∧
    (k ∈ LBkeys ∧ UB k < LB k ∧ v1 = LB k ∧ v2 = UB k) ∧
    stepPos (scipRunSteps ["timeflex"]) RunStep.guardNoOptions <
      stepPos (scipRunSteps ["timeflex"]) (RunStep.runOptimize "timeflex") := by
  refine ⟨⟨List.mem_of_find?_eq_some hga, ?_⟩, ?_, by decide⟩
  · have hpred := List.find?_some hga
    have hnil : (Dlist.flatMap (fun d =>
        Al.filter (fun a => decide ((ex, d, a) ∈ EDA)))) = [] :=
      List.isEmpty_iff.mp hpred
    intro d hd a ha hmem
    have hin : a ∈ Dlist.flatMap (fun d =>
        Al.filter (fun a => decide ((ex, d, a) ∈ EDA))) :=
      List.mem_flatMap.mpr ⟨d, hd, List.mem_filter.mpr ⟨ha, by simpa using hmem⟩⟩
    rw [hnil] at hin
    cases hin
  · obtain ⟨k0, hh, hf⟩ := Option.map_eq_some'.mp hgb
    have hk0 : k0 ∈ LBkeys.filter (fun j => decide (UB j < LB j)) :=
      List.mem_of_mem_head? (hh ▸ Option.mem_def.mpr rfl)
    obtain ⟨hk1, hk2⟩ := List.mem_filter.mp hk0
    obtain ⟨rfl, rfl, rfl⟩ : k = k0 ∧ v1 = LB k0 ∧ v2 = UB k0 := by
      have := hf
      simp only [Prod.mk.injEq] at this
      exact ⟨this.1.symm, this.2.1.symm, this.2.2.symm⟩
    exact ⟨hk1, by simpa using hk2, rfl, rfl⟩

/-- Witness for C8: a concrete model whose only instance `X - 1` has no
legal (day, area) pair and whose only window is inverted; both guards report
it, and the guard step precedes the optimize step in the trace. -/
theorem c8_witness :
    guardA ["X - 1"] ["B-sal"] [] = some "X - 1" ∧
    guardB [c8key] c8LB c8UB = some (c8key, 600, 480) ∧
    (("X - 1" ∈ ["X - 1"] ∧ ∀ d ∈ Dlist, ∀ a ∈ ["B-sal"],
        (("X - 1", d, a) : Triple) ∉ ([] : List Triple)) ∧
      (c8key ∈ [c8key] ∧ c8UB c8key < c8LB c8key ∧
        (600 : ℚ) = c8LB c8key ∧ (480 : ℚ) = c8UB c8key) ∧
      stepPos (scipRunSteps ["timeflex"]) RunStep.guardNoOptions <
        stepPos (scipRunSteps ["timeflex"]) (RunStep.runOptimize "timeflex")) := by
  have hgb : guardB [c8key] c8LB c8UB = some (c8key, 600, 480) := by
    have hd : (decide ((480 : ℚ) < 600)) = true := decide_eq_true (by norm_num)
    simp [guardB, c8key, c8LB, c8UB, List.filter, hd]
  exact ⟨by decide, hgb,
    c8_amended_guards ["X - 1"] ["B-sal"] [] [c8key] c8LB c8UB "X - 1" c8key
      600 480 (by decide) hgb⟩

/-- C9 counterexample: saving through the SCIP module rounds `Byrjun` and
`Endir` to the nearest 5 minutes, so loading back the document written for a
result with start 08:02 yields 08:00 — the round trip is not the identity on
the solution table. -/
theorem c9_counterexample :
    load_solution (save_solution_scip c9result (some c9edited)) ≠ (c9result, c9edited) ∧
    load_solution (save_solution_scip c9result (some c9edited)) =
      ([[("Æfing", "A"), ("Dagur", "mán"), ("Salur/svæði", "B"),
         ("Byrjun", "08:00"), ("Endir", "09:00")]], c9edited) ∧
    round_time_to_nearest_5_minutes "08:02" = "08:00" := by
  refine ⟨by decide, by decide, by decide⟩

/-- C9 amended: the Gurobi module's save/load round-trips both tables
unchanged; the SCIP module's round trip returns the conditions unchanged and
the solution with its `Byrjun`/`Endir` columns rounded to the nearest 5
minutes — hence unchanged exactly when all its times already sit on the
5-minute grid. -/
theorem c9_amended_roundtrip (result edited : List TableRow) :
    load_solution (save_solution_gurobi result (some edited)) = (result, edited) ∧
    load_solution (save_solution_scip result (some edited)) = (result.map roundRec, edited) ∧
    ((∀ r ∈ result, roundRec r = r) →
      load_solution (save_solution_scip result (some edited)) = (result, edited)) := by
  refine ⟨rfl, rfl, ?_⟩
  intro h
  have hmap : result.map roundRec = result := by
    calc result.map roundRec = result.map id := List.map_congr_left (fun a ha => h a ha)
    _ = result := List.map_id result
  show (result.map roundRec, edited) = (result, edited)
  rw [hmap]

/-- Witness for C9: on a table already aligned to the 5-minute grid the SCIP
round trip is the identity. -/
theorem c9_witness :
    (∀ r ∈ c9resultRound, roundRec r = r) ∧
    load_solution (save_solution_scip c9resultRound (some c9edited)) =
      (c9resultRound, c9edited) :=
  ⟨by decide, (c9_amended_roundtrip c9resultRound c9edited).2.2 (by decide)⟩

/-- C10: if every phase of a SCIP run ends with zero solutions, the
`final_sol` bookkeeping stays `None` and the function returns the empty
result table whose columns are exactly
`Æfing, Dagur, Salur/svæði, Byrjun, Endir, ViolatedWindow, Hluti, Modified`,
in that order, raising no exception (the embedded extraction is total). -/
theorem c10_empty_schedule (m : MData) (outcomes : List (ℕ × Sol))
    (h : ∀ o ∈ outcomes, o.1 = 0) :
    finalSolFold outcomes = none ∧
    scipResultTable m (finalSolFold outcomes) = ⟨scipOutputColumns, []⟩ ∧
    scipOutputColumns = ["Æfing", "Dagur", "Salur/svæði", "Byrjun", "Endir",
      "ViolatedWindow", "Hluti", "Modified"] := by
  have haux : ∀ (l : List (ℕ × Sol)), (∀ o ∈ l, o.1 = 0) →
      l.foldl (fun acc o => if 0 < o.1 then some o.2 else acc) none = none := by
    intro l
    induction l with
    | nil => intro _; rfl
    | cons a t ih =>
      intro hl
      have ha : a.1 = 0 := hl a (List.mem_cons_self _ _)
      rw [List.foldl_cons, if_neg (by omega)]
      exact ih (fun o ho => hl o (List.mem_cons_of_mem _ ho))
  have hnone : finalSolFold outcomes = none := haux outcomes h
  refine ⟨hnone, ?_, rfl⟩
  rw [hnone]
  rfl

/-- Witness for C10: one phase with zero solutions yields the empty table
with the exact column list. -/
theorem c10_witness :
    (∀ o ∈ [((0 : ℕ), wSol)], o.1 = 0) ∧
    (finalSolFold [((0 : ℕ), wSol)] = none ∧
      scipResultTable wData (finalSolFold [((0 : ℕ), wSol)]) = ⟨scipOutputColumns, []⟩ ∧
      scipOutputColumns = ["Æfing", "Dagur", "Salur/svæði", "Byrjun", "Endir",
        "ViolatedWindow", "Hluti", "Modified"]) :=
  ⟨by simp, c10_empty_schedule wData [((0 : ℕ), wSol)] (by simp)⟩
